import Mathlib

/-!
# Verification of `user_profile_manager.py`

Shallow embedding of the repository's single source file
`src/user_profile_manager.py`: a `UserProfileManager` class with three
attributes guarded by a `ValidatedProperty` descriptor, a derived
`last_login_with_default` property, an `update_last_login` method, an
identity-keyed `WeakValueDictionary` instance cache, and a `__str__`
rendering.

Modelling conventions:
* Python values that can reach the validators are modelled by `PyVal`
  (`None`, `str`, `datetime`, and a representative non-string/non-datetime
  value `intv` standing for any other object).
* An instance's `__dict__` is modelled by `Profile`: each key either holds
  a value (`some v`, which may be `some PyVal.none` for an explicit `None`)
  or is absent (`none`).  The underscore keys `_username`, `_email`,
  `_last_login` written by `__init__` are carried as well; the descriptors
  never touch them.
* `raise ValueError(...)` in `ValidatedProperty.__set__` becomes
  `Except.error (PyError.invalidValue name value)`; the error carries the
  bound field name and the rejected value, exactly the data interpolated
  into the Python message.  Code paths with no `raise` (`__get__`, the two
  cache methods, `__str__`, `last_login_with_default`) are embedded as
  total functions: they cannot produce a `PyError` by construction.
* `datetime.now()` is an external input: functions that consult the clock
  take the current time as an explicit argument.
* The `WeakValueDictionary` cache is an association list from identity
  token to the cached object, consulted together with a liveness oracle
  `live : Nat → Bool` describing which objects are still strongly
  referenced; a dead referent makes `get` return `none`, exactly the
  observable behaviour of `WeakValueDictionary.get`.
-/

/-- A `datetime.datetime` value, as a plain record of its components. -/
structure Datetime where
  year : Nat
  month : Nat
  day : Nat
  hour : Nat
  minute : Nat
  second : Nat
  microsecond : Nat
deriving DecidableEq, Repr

/-- Python values reaching the validated fields. `intv n` stands for any
value that is neither a string, nor `None`, nor a `datetime` (the
validators only test `isinstance`, so one representative family
suffices). -/
inductive PyVal where
  | none
  | str (s : String)
  | dt (d : Datetime)
  | intv (n : Int)
deriving DecidableEq, Repr

/-- The single error kind of the program: `ValueError(f"Invalid value for
{self.name}: {value}")` raised in `ValidatedProperty.__set__`, carrying
the bound field name and the rejected value. -/
inductive PyError where
  | invalidValue (field : String) (value : PyVal)
deriving DecidableEq, Repr

/-- The three class attributes of `UserProfileManager` that are
`ValidatedProperty` descriptors. -/
inductive FieldId where
  | username
  | email
  | last_login
deriving DecidableEq, Repr

/-- The name bound to each descriptor by `__set_name__` at class-definition
time: the attribute's own name in the class body. -/
def FieldId.name : FieldId → String
  | .username => "username"
  | .email => "email"
  | .last_login => "last_login"

/-- Whitespace characters stripped by Python's `str.strip()` (the
characters for which `str.isspace()` holds). -/
def isPySpace (c : Char) : Bool :=
  c = ' ' || c = '\t' || c = '\n' || c = '\x0d' || c = '\x0b' || c = '\x0c' ||
  c = '\x1c' || c = '\x1d' || c = '\x1e' || c = '\x1f' || c = '\x85' ||
  c = '\xa0' || c = ' ' ||
  (' ' ≤ c && c ≤ ' ') ||
  c = ' ' || c = ' ' || c = ' ' || c = ' ' || c = '　'

/-- `str.strip()` on the underlying character list: drop whitespace from
the front, then from the back (via `reverse`). -/
def pyStrip (l : List Char) : List Char :=
  ((l.dropWhile isPySpace).reverse.dropWhile isPySpace).reverse

/-- `UserProfileManager.validate_username`:
`isinstance(username, str) and bool(username.strip())`. -/
def validate_username : PyVal → Bool
  | .str s => !(pyStrip s.data).isEmpty
  | _ => false

/-- Character class `[a-zA-Z0-9._%+-]` (the local part of the email
regex). -/
def isLocalChar (c : Char) : Bool :=
  c.isAlpha || c.isDigit || c = '.' || c = '_' || c = '%' || c = '+' || c = '-'

/-- Character class `[a-zA-Z0-9.-]` (the domain part of the email
regex). -/
def isDomainChar (c : Char) : Bool :=
  c.isAlpha || c.isDigit || c = '.' || c = '-'

/-- All ways of cutting a list in two: `(a, b) ∈ splits l ↔ l = a ++ b`. -/
def splits : List Char → List (List Char × List Char)
  | [] => [([], [])]
  | c :: cs => ([], c :: cs) :: (splits cs).map (fun p => (c :: p.1, p.2))

/-- Matchability of a character list against the tail `\.[a-zA-Z]{2,}` of
the email regex, consuming the whole list. -/
def tldMatch : List Char → Bool
  | [] => false
  | x :: t => x = '.' && decide (2 ≤ t.length) && t.all Char.isAlpha

/-- Matchability against `[a-zA-Z0-9.-]+\.[a-zA-Z]{2,}`, consuming the
whole list: some nonempty prefix of domain characters followed by a
`tldMatch` tail. -/
def domainTail (r : List Char) : Bool :=
  (splits r).any fun q => !q.1.isEmpty && q.1.all isDomainChar && tldMatch q.2

/-- Matchability against `@[a-zA-Z0-9.-]+\.[a-zA-Z]{2,}`, consuming the
whole list. -/
def afterAt : List Char → Bool
  | [] => false
  | x :: r => x = '@' && domainTail r

/-- Matchability of the whole character list against the regular expression
`[a-zA-Z0-9._%+-]+@[a-zA-Z0-9.-]+\.[a-zA-Z]{2,}` (consuming the entire
list).  A regex without backreferences accepts exactly the strings that
admit a decomposition into the pattern's pieces, so matchability is an
existential over the cut points, realised executably by scanning all
splits. -/
def emailMatch (l : List Char) : Bool :=
  (splits l).any fun p => !p.1.isEmpty && p.1.all isLocalChar && afterAt p.2

/-- `UserProfileManager.validate_email`:
```
if not isinstance(email, str): return False
pattern = r'^[a-zA-Z0-9._%+-]+@[a-zA-Z0-9.-]+\.[a-zA-Z]{2,}$'
return bool(re.match(pattern, email))
```
`re.match` anchors at the start; the final `$` matches at the end of the
string **or** just before a newline that ends the string, so a body match
with one trailing `'\n'` is also accepted. -/
def validate_email : PyVal → Bool
  | .str s =>
    emailMatch s.data ||
      (match s.data.getLast? with
       | some c => c = '\x0a' && emailMatch s.data.dropLast
       | Option.none => false)
  | _ => false

/-- `UserProfileManager.validate_last_login`:
`date is None or isinstance(date, datetime)`. -/
def validate_last_login : PyVal → Bool
  | .none => true
  | .dt _ => true
  | _ => false

/-- The validator each descriptor was constructed with:
`username = ValidatedProperty(validate_username)` and likewise for the
other two fields. -/
def FieldId.validator : FieldId → (PyVal → Bool)
  | .username => validate_username
  | .email => validate_email
  | .last_login => validate_last_login

/-- The instance `__dict__` of a `UserProfileManager`: the three
descriptor-managed keys plus the three underscore keys written by
`__init__`.  `Option.none` is an absent key; `some v` a present key with
value `v` (possibly `PyVal.none`). -/
structure Profile where
  username : Option PyVal
  email : Option PyVal
  last_login : Option PyVal
  priv_username : Option PyVal
  priv_email : Option PyVal
  priv_last_login : Option PyVal
deriving DecidableEq, Repr

/-- The `__dict__` entry under a descriptor's bound name. -/
def Profile.entry (p : Profile) : FieldId → Option PyVal
  | .username => p.username
  | .email => p.email
  | .last_login => p.last_login

/-- `instance.__dict__[self.name] = value` inside
`ValidatedProperty.__set__`. -/
def Profile.write (p : Profile) : FieldId → PyVal → Profile
  | .username, v => { p with username := some v }
  | .email, v => { p with email := some v }
  | .last_login, v => { p with last_login := some v }

/-- `ValidatedProperty.__get__` on an instance:
`return instance.__dict__.get(self.name)` — the stored value, or `None`
when the key is absent. -/
def ValidatedProperty.get (p : Profile) (f : FieldId) : PyVal :=
  (p.entry f).getD PyVal.none

/-- `ValidatedProperty.__set__`:
```
if not self.validator(value):
    raise ValueError(f"Invalid value for {self.name}: {value}")
instance.__dict__[self.name] = value
```
-/
def ValidatedProperty.set (p : Profile) (f : FieldId) (v : PyVal) :
    Except PyError Profile :=
  if f.validator v then .ok (p.write f v)
  else .error (.invalidValue f.name v)

/-- The caller-observable outcome of an assignment statement
`instance.f = v`: the instance afterwards, together with the raised error
if any.  A `raise` propagates before any mutation, so on the error path
the instance is returned unchanged. -/
def ValidatedProperty.trySet (p : Profile) (f : FieldId) (v : PyVal) :
    Profile × Option PyError :=
  match ValidatedProperty.set p f v with
  | .ok p' => (p', Option.none)
  | .error e => (p, some e)

namespace UserProfileManager

/-- `UserProfileManager.default_last_login = datetime(2000, 1, 1)`. -/
def default_last_login : Datetime := ⟨2000, 1, 1, 0, 0, 0, 0⟩

/-- `UserProfileManager.__init__`: writes `self._username = None`,
`self._email = None`, `self._last_login = None`.  These are plain
attribute writes under the underscore names — no `ValidatedProperty`
descriptor exists for them, so no validator is consulted and the three
descriptor-managed keys stay absent. -/
def init : Profile :=
  { username := Option.none
    email := Option.none
    last_login := Option.none
    priv_username := some PyVal.none
    priv_email := some PyVal.none
    priv_last_login := some PyVal.none }

/-- `last_login_with_default` (a read-only `@property`):
`self.last_login if self.last_login is not None else self.default_last_login`.
`self.last_login` routes through `ValidatedProperty.__get__`. -/
def last_login_with_default (p : Profile) : PyVal :=
  if ValidatedProperty.get p .last_login ≠ PyVal.none then
    ValidatedProperty.get p .last_login
  else .dt default_last_login

/-- `update_last_login(self, new_time=None)`:
`self.last_login = new_time if new_time is not None else datetime.now()`.
The assignment routes through the descriptor; the clock is passed in as
`now`. -/
def update_last_login (p : Profile) (new_time : PyVal) (now : Datetime) :
    Except PyError Profile :=
  ValidatedProperty.set p .last_login
    (if new_time ≠ PyVal.none then new_time else .dt now)

end UserProfileManager

/-- A live Python object: its identity token (`id(obj)`) paired with its
current state. -/
structure Obj where
  oid : Nat
  state : Profile
deriving Repr

/-- `UserProfileManager._instance_cache`, a `WeakValueDictionary`: an
association list from identity token to the cached object (held weakly).
A `dict` assignment overwrites the previous entry under the same key;
consing and taking the first hit on lookup realises that. -/
def Cache := List (Nat × Obj)

namespace UserProfileManager

/-- `add_to_cache(cls, instance)`:
`cls._instance_cache[id(instance)] = instance`. -/
def add_to_cache (c : Cache) (o : Obj) : Cache :=
  (o.oid, o) :: c

/-- `get_from_cache(cls, uid)`: `return cls._instance_cache.get(uid)`.
The weak dictionary yields the referenced instance only while it is still
strongly referenced elsewhere (`live` oracle); a missing key or a
collected referent yields `None`, never an error. -/
def get_from_cache (c : Cache) (live : Nat → Bool) (uid : Nat) : Option Obj :=
  match List.lookup uid c with
  | some o => if live o.oid then some o else Option.none
  | Option.none => Option.none

end UserProfileManager

/-- Zero-pad a number to the given width, as `datetime.__str__` does for
each component (`%04d`, `%02d`, `%06d`). -/
def zeroPad (width n : Nat) : String :=
  let digits := toString n
  String.mk (List.replicate (width - digits.length) '0') ++ digits

/-- Rendering of a `PyVal` by an f-string: `None`, the raw string, or
`str(datetime)` (`YYYY-MM-DD HH:MM:SS`, with a six-digit zero-padded
`.ffffff` appended exactly when the microsecond field is nonzero). -/
def PyVal.render : PyVal → String
  | .none => "None"
  | .str s => s
  | .dt d =>
    zeroPad 4 d.year ++ "-" ++ zeroPad 2 d.month ++ "-" ++ zeroPad 2 d.day ++
      " " ++ zeroPad 2 d.hour ++ ":" ++ zeroPad 2 d.minute ++ ":" ++
      zeroPad 2 d.second ++
      (if d.microsecond ≠ 0 then "." ++ zeroPad 6 d.microsecond else "")
  | .intv n => toString n

namespace UserProfileManager

/-- `__str__`:
`f"UserProfile(username={self.username}, email={self.email}, last_login={self.last_login})"`
— each interpolation reads through `ValidatedProperty.__get__`. -/
def toStr (p : Profile) : String :=
  "UserProfile(username=" ++ (ValidatedProperty.get p .username).render ++
    ", email=" ++ (ValidatedProperty.get p .email).render ++
    ", last_login=" ++ (ValidatedProperty.get p .last_login).render ++ ")"

end UserProfileManager

/-! ## Spec-side predicates

These definitions follow the specification's *words* (not the code) and
exist to be compared against the executable embeddings above. -/

/-- Follows the spec's words for the email rule: "one-or-more of
`[A-Za-z0-9._%+-]` then `@` then one-or-more of `[A-Za-z0-9.-]` then `.`
then 2-or-more letters, anchored at both ends" — a decomposition of the
whole character list into exactly those pieces. -/
def SpecEmail (l : List Char) : Prop :=
  ∃ a b c : List Char,
    l = a ++ '@' :: (b ++ '.' :: c) ∧
    a ≠ [] ∧ (∀ ch ∈ a, isLocalChar ch = true) ∧
    b ≠ [] ∧ (∀ ch ∈ b, isDomainChar ch = true) ∧
    2 ≤ c.length ∧ (∀ ch ∈ c, ch.isAlpha = true)

/-! ## Correctness of the split-scanning regex matcher -/

/-- `splits` enumerates exactly the two-part decompositions of a list. -/
theorem mem_splits {l a b : List Char} : (a, b) ∈ splits l ↔ l = a ++ b := by
  induction l generalizing a b with
  | nil =>
    simp only [splits, List.mem_singleton, Prod.mk.injEq]
    constructor
    · rintro ⟨rfl, rfl⟩; rfl
    · intro h
      obtain ⟨rfl, rfl⟩ := List.append_eq_nil.mp h.symm
      exact ⟨rfl, rfl⟩
  | cons c cs ih =>
    simp only [splits, List.mem_cons, List.mem_map, Prod.mk.injEq]
    constructor
    · rintro (⟨rfl, rfl⟩ | ⟨⟨a', b'⟩, hmem, rfl, rfl⟩)
      · rfl
      · simpa using congrArg (c :: ·) (ih.mp hmem)
    · intro h
      cases a with
      | nil =>
        left
        exact ⟨rfl, by simpa using h.symm⟩
      | cons x xs =>
        right
        rw [List.cons_append] at h
        injection h with h1 h2
        exact ⟨(xs, b), ih.mpr h2, by rw [h1], rfl⟩

/-- The tail matcher accepts exactly a dot followed by two or more
letters. -/
theorem tldMatch_iff {u : List Char} :
    tldMatch u = true ↔
      ∃ t, u = '.' :: t ∧ 2 ≤ t.length ∧ ∀ ch ∈ t, ch.isAlpha = true := by
  cases u with
  | nil => simp [tldMatch]
  | cons x t =>
    simp only [tldMatch, Bool.and_eq_true, decide_eq_true_eq, List.all_eq_true]
    constructor
    · rintro ⟨⟨rfl, h1⟩, h2⟩
      exact ⟨t, rfl, h1, h2⟩
    · rintro ⟨t', ht, h1, h2⟩
      injection ht with hx ht'
      subst hx; subst ht'
      exact ⟨⟨rfl, h1⟩, h2⟩

/-- The domain matcher accepts exactly a nonempty run of domain characters
followed by a dot and a 2-plus-letter TLD. -/
theorem domainTail_iff {r : List Char} :
    domainTail r = true ↔
      ∃ b c, r = b ++ '.' :: c ∧ b ≠ [] ∧ (∀ ch ∈ b, isDomainChar ch = true) ∧
        2 ≤ c.length ∧ (∀ ch ∈ c, ch.isAlpha = true) := by
  unfold domainTail
  rw [List.any_eq_true]
  constructor
  · rintro ⟨⟨b, u⟩, hmem, hpred⟩
    rw [mem_splits] at hmem
    simp only [Bool.and_eq_true, Bool.not_eq_true', List.isEmpty_eq_false_iff_exists_mem,
      List.all_eq_true] at hpred
    obtain ⟨⟨hne, hall⟩, htld⟩ := hpred
    obtain ⟨c, rfl, hlen, halpha⟩ := tldMatch_iff.mp htld
    refine ⟨b, c, hmem, ?_, hall, hlen, halpha⟩
    rintro rfl
    simp at hne
  · rintro ⟨b, c, rfl, hne, hall, hlen, halpha⟩
    refine ⟨(b, '.' :: c), mem_splits.mpr rfl, ?_⟩
    simp only [Bool.and_eq_true, Bool.not_eq_true', List.all_eq_true]
    refine ⟨⟨?_, hall⟩, tldMatch_iff.mpr ⟨c, rfl, hlen, halpha⟩⟩
    simpa [List.isEmpty_iff] using hne

/-- The full matcher accepts exactly the spec's decomposition. -/
theorem emailMatch_iff {l : List Char} : emailMatch l = true ↔ SpecEmail l := by
  unfold emailMatch SpecEmail
  rw [List.any_eq_true]
  constructor
  · rintro ⟨⟨a, r⟩, hmem, hpred⟩
    rw [mem_splits] at hmem
    simp only [Bool.and_eq_true, Bool.not_eq_true', List.all_eq_true] at hpred
    obtain ⟨⟨hne, hall⟩, hafter⟩ := hpred
    cases r with
    | nil => simp [afterAt] at hafter
    | cons x r' =>
      simp only [afterAt, Bool.and_eq_true, decide_eq_true_eq] at hafter
      obtain ⟨rfl, hdom⟩ := hafter
      obtain ⟨b, c, rfl, hbne, hbl, hlen, halpha⟩ := domainTail_iff.mp hdom
      refine ⟨a, b, c, hmem, ?_, hall, hbne, hbl, hlen, halpha⟩
      intro h
      subst h
      simp at hne
  · rintro ⟨a, b, c, rfl, hane, hal, hbne, hbl, hlen, halpha⟩
    refine ⟨(a, '@' :: (b ++ '.' :: c)), mem_splits.mpr rfl, ?_⟩
    simp only [Bool.and_eq_true, Bool.not_eq_true', List.all_eq_true, afterAt,
      decide_eq_true_eq]
    refine ⟨⟨?_, hal⟩, trivial, domainTail_iff.mpr ⟨b, c, rfl, hbne, hbl, hlen, halpha⟩⟩
    simpa [List.isEmpty_iff] using hane

/-- `validate_email` on a string: a body match, or a body match followed by
one trailing newline (the Python `$` semantics under `re.match`). -/
theorem validate_email_str_iff {s : String} :
    validate_email (.str s) = true ↔
      SpecEmail s.data ∨ ∃ t, s.data = t ++ ['\x0a'] ∧ SpecEmail t := by
  show (emailMatch s.data || _) = true ↔ _
  rw [Bool.or_eq_true, emailMatch_iff]
  apply or_congr Iff.rfl
  cases hlast : s.data.getLast? with
  | none =>
    simp only [Bool.false_eq_true, false_iff]
    rintro ⟨t, heq, -⟩
    rw [heq, List.getLast?_concat] at hlast
    cases hlast
  | some ch =>
    simp only [Bool.and_eq_true, decide_eq_true_eq]
    constructor
    · rintro ⟨rfl, hm⟩
      obtain ⟨t, ht⟩ := List.getLast?_eq_some_iff.mp hlast
      refine ⟨t, ht, ?_⟩
      rw [← emailMatch_iff]
      have hdl : s.data.dropLast = t := by rw [ht, List.dropLast_concat]
      rwa [hdl] at hm
    · rintro ⟨t, ht, hm⟩
      rw [ht, List.getLast?_concat] at hlast
      injection hlast with hch
      refine ⟨hch.symm, ?_⟩
      rw [ht, List.dropLast_concat, emailMatch_iff]
      exact hm

/-! ## `str.strip()` facts -/

/-- Dropping a `p`-prefix cannot create or destroy non-`p` elements: the
remainder is all-`p` exactly when the whole list was. -/
theorem all_dropWhile_iff {p : Char → Bool} {l : List Char} :
    (∀ c ∈ l.dropWhile p, p c = true) ↔ ∀ c ∈ l, p c = true := by
  constructor
  · intro h c hc
    rw [← List.takeWhile_append_dropWhile p l] at hc
    rcases List.mem_append.mp hc with h1 | h2
    · exact List.mem_takeWhile_imp h1
    · exact h c h2
  · intro h c hc
    exact h c ((List.dropWhile_sublist p).subset hc)

/-- `strip` yields the empty string exactly when every character is
whitespace. -/
theorem pyStrip_eq_nil_iff {l : List Char} :
    pyStrip l = [] ↔ ∀ c ∈ l, isPySpace c = true := by
  unfold pyStrip
  rw [List.reverse_eq_nil_iff, List.dropWhile_eq_nil_iff]
  constructor
  · intro h
    exact all_dropWhile_iff.mp fun c hc => h c (List.mem_reverse.mpr hc)
  · intro h c hc
    exact all_dropWhile_iff.mpr h c (List.mem_reverse.mp hc)

/-! ## Claims -/

/-- Claim C1: for every profile instance and every validated field,
assigning a value the field's validator rejects produces exactly the
single error kind, carrying the bound field name and the rejected value —
and an assignment produces an error *only* in that case, and only that
error.  Reads (`ValidatedProperty.get`), cache operations
(`add_to_cache`, `get_from_cache`) and rendering (`toStr`) contain no
`raise` and are embedded as total functions, so they can produce no
`PyError` at all. -/
theorem claim_C1_invalid_assignment_error (p : Profile) (f : FieldId) (v : PyVal) :
    (ValidatedProperty.set p f v = .error (.invalidValue f.name v) ↔
      f.validator v = false) ∧
    ∀ e, ValidatedProperty.set p f v = .error e → e = .invalidValue f.name v := by
  cases hv : f.validator v with
  | false =>
    refine ⟨by simp [ValidatedProperty.set, hv], fun e he => ?_⟩
    simp only [ValidatedProperty.set, hv, Bool.false_eq_true, if_false] at he
    injection he with h
    exact h.symm
  | true =>
    refine ⟨by simp [ValidatedProperty.set, hv], fun e he => ?_⟩
    simp [ValidatedProperty.set, hv] at he

/-- Concrete instantiation of C1: assigning a non-string to `username`
fails with the error carrying the field name and the value. -/
theorem claim_C1_witness :
    ValidatedProperty.set UserProfileManager.init .username (.intv 0) =
      .error (.invalidValue "username" (.intv 0)) :=
  (claim_C1_invalid_assignment_error UserProfileManager.init .username (.intv 0)).1.mpr
    (by decide)

/-- Claim C2: a rejected assignment leaves the instance exactly as it was
(the caller still holds the unmodified `__dict__`, including an absent
entry) and reports the error carrying the field name and rejected
value. -/
theorem claim_C2_rejection_preserves_state (p : Profile) (f : FieldId) (v : PyVal)
    (h : f.validator v = false) :
    ValidatedProperty.trySet p f v = (p, some (.invalidValue f.name v)) := by
  simp [ValidatedProperty.trySet, ValidatedProperty.set, h]

/-- Concrete instantiation of C2: the spec's scenario value
`"not-an-email"` is rejected and the fresh instance is unchanged. -/
theorem claim_C2_witness :
    ValidatedProperty.trySet UserProfileManager.init .email (.str "not-an-email") =
      (UserProfileManager.init, some (.invalidValue "email" (.str "not-an-email"))) :=
  claim_C2_rejection_preserves_state UserProfileManager.init .email
    (.str "not-an-email") (by decide)

/-- Claim C4: `validate_username` accepts exactly the strings whose
`strip()` is non-empty — equivalently, the strings containing at least
one non-whitespace character — and rejects every non-string. -/
theorem claim_C4_validate_username_iff :
    (∀ v : PyVal, validate_username v = true ↔
      ∃ s, v = PyVal.str s ∧ pyStrip s.data ≠ []) ∧
    (∀ l : List Char, pyStrip l ≠ [] ↔ ∃ c ∈ l, isPySpace c = false) := by
  constructor
  · intro v
    cases v with
    | str s =>
      simp only [validate_username, Bool.not_eq_true', List.isEmpty_eq_false,
        PyVal.str.injEq]
      constructor
      · intro h
        exact ⟨s, rfl, h⟩
      · rintro ⟨s', rfl, hne⟩
        exact hne
    | none => simp [validate_username]
    | dt d => simp [validate_username]
    | intv n => simp [validate_username]
  · intro l
    rw [Ne, pyStrip_eq_nil_iff]
    constructor
    · intro h
      by_contra hc
      push_neg at hc
      refine h fun c hcmem => ?_
      have hne := hc c hcmem
      cases hb : isPySpace c with
      | false => exact absurd hb hne
      | true => rfl
    · rintro ⟨c, hcmem, hfalse⟩ hall
      rw [hall c hcmem] at hfalse
      cases hfalse

/-- Claim C5: `last_login_with_default` is the fixed sentinel
`datetime(2000, 1, 1)` on a fresh instance; after
`update_last_login(T)` with a timestamp `T` it is exactly `T` (the update
always succeeds); and in general it returns the stored `last_login` when
that reads as a non-`None` value and the class-level default constant
otherwise. -/
theorem claim_C5_last_login_with_default :
    (UserProfileManager.last_login_with_default UserProfileManager.init =
        PyVal.dt UserProfileManager.default_last_login ∧
      UserProfileManager.default_last_login = ⟨2000, 1, 1, 0, 0, 0, 0⟩) ∧
    (∀ (p : Profile) (T now : Datetime), ∃ p',
      UserProfileManager.update_last_login p (.dt T) now = .ok p' ∧
      UserProfileManager.last_login_with_default p' = .dt T) ∧
    (∀ p : Profile, ValidatedProperty.get p .last_login ≠ PyVal.none →
      UserProfileManager.last_login_with_default p =
        ValidatedProperty.get p .last_login) ∧
    (∀ p : Profile, ValidatedProperty.get p .last_login = PyVal.none →
      UserProfileManager.last_login_with_default p =
        .dt UserProfileManager.default_last_login) := by
  refine ⟨⟨rfl, rfl⟩, fun p T now => ?_, fun p h => ?_, fun p h => ?_⟩
  · exact ⟨p.write .last_login (.dt T), rfl, rfl⟩
  · unfold UserProfileManager.last_login_with_default
    rw [if_pos h]
  · unfold UserProfileManager.last_login_with_default
    rw [if_neg (fun hn => hn h)]

/-- Concrete instantiation of C5: the fresh default, and an exact
round-trip through `update_last_login` with an explicit timestamp. -/
theorem claim_C5_witness :
    UserProfileManager.last_login_with_default UserProfileManager.init =
      PyVal.dt UserProfileManager.default_last_login ∧
    ∃ p', UserProfileManager.update_last_login UserProfileManager.init
        (.dt ⟨2024, 5, 6, 7, 8, 9, 0⟩) ⟨2026, 1, 1, 0, 0, 0, 0⟩ = .ok p' ∧
      UserProfileManager.last_login_with_default p' =
        .dt ⟨2024, 5, 6, 7, 8, 9, 0⟩ :=
  ⟨claim_C5_last_login_with_default.2.2.2 UserProfileManager.init rfl,
   claim_C5_last_login_with_default.2.1 UserProfileManager.init
     ⟨2024, 5, 6, 7, 8, 9, 0⟩ ⟨2026, 1, 1, 0, 0, 0, 0⟩⟩

/-- Claim C6: after `add_to_cache(p)`, a `get_from_cache(id(p))` returns
`p` itself while `p` is still strongly referenced (the liveness oracle
holds); and a lookup of a token with no live entry — whether the key is
missing or the referent has been collected — returns `None`; the
embedding of `get_from_cache` is a total function, so no lookup ever
raises. -/
theorem claim_C6_cache (c : Cache) (o : Obj) (live : Nat → Bool) :
    (live o.oid = true →
      UserProfileManager.get_from_cache (UserProfileManager.add_to_cache c o)
        live o.oid = some o) ∧
    (∀ uid, List.lookup uid c = Option.none →
      UserProfileManager.get_from_cache c live uid = Option.none) ∧
    (∀ uid o', List.lookup uid c = some o' → live o'.oid = false →
      UserProfileManager.get_from_cache c live uid = Option.none) := by
  refine ⟨fun h => ?_, fun uid h => ?_, fun uid o' h hdead => ?_⟩
  · simp [UserProfileManager.get_from_cache, UserProfileManager.add_to_cache, h]
  · simp [UserProfileManager.get_from_cache, h]
  · simp [UserProfileManager.get_from_cache, h, hdead]

/-- Concrete instantiation of C6: register-then-lookup returns the object;
a lookup in the empty cache returns `None`; a lookup of a registered but
collected (dead) referent returns `None`. -/
theorem claim_C6_witness :
    UserProfileManager.get_from_cache
        (UserProfileManager.add_to_cache ([] : Cache) ⟨7, UserProfileManager.init⟩)
        (fun _ => true) 7 = some ⟨7, UserProfileManager.init⟩ ∧
    UserProfileManager.get_from_cache ([] : Cache) (fun _ => true) 5 =
      Option.none ∧
    UserProfileManager.get_from_cache
        (UserProfileManager.add_to_cache ([] : Cache) ⟨7, UserProfileManager.init⟩)
        (fun _ => false) 7 = Option.none :=
  ⟨(claim_C6_cache [] ⟨7, UserProfileManager.init⟩ (fun _ => true)).1 rfl,
   (claim_C6_cache [] ⟨7, UserProfileManager.init⟩ (fun _ => true)).2.1 5 rfl,
   (claim_C6_cache (UserProfileManager.add_to_cache ([] : Cache)
        ⟨7, UserProfileManager.init⟩) ⟨7, UserProfileManager.init⟩
      (fun _ => false)).2.2 7 ⟨7, UserProfileManager.init⟩ rfl rfl⟩

/-- Claim C7: `__str__` produces exactly
`UserProfile(username=<u>, email=<e>, last_login=<l>)` with the currently
stored values (absent fields render as `None`); the spec's scenario —
fresh instance, `username := "alice"`, `email := "alice@example.com"`,
`last_login` untouched — renders to the expected literal string. -/
theorem claim_C7_render :
    (∃ p1 p2,
      ValidatedProperty.set UserProfileManager.init .username (.str "alice") =
        .ok p1 ∧
      ValidatedProperty.set p1 .email (.str "alice@example.com") = .ok p2 ∧
      UserProfileManager.toStr p2 =
        "UserProfile(username=alice, email=alice@example.com, last_login=None)") ∧
    ∀ p, UserProfileManager.toStr p =
      "UserProfile(username=" ++ (ValidatedProperty.get p .username).render ++
        ", email=" ++ (ValidatedProperty.get p .email).render ++
        ", last_login=" ++ (ValidatedProperty.get p .last_login).render ++ ")" := by
  refine ⟨⟨UserProfileManager.init.write .username (.str "alice"),
    (UserProfileManager.init.write .username (.str "alice")).write .email
      (.str "alice@example.com"), ?_, ?_, ?_⟩, fun p => rfl⟩
  · rfl
  · rfl
  · rfl

/-- Claim C8: a freshly constructed instance has all three validated
fields absent (`__init__` touches only the underscore keys, so no
descriptor write — hence no validator — runs), and reading a
never-assigned field yields the `None` sentinel rather than an error. -/
theorem claim_C8_fresh_instance :
    (∀ f, UserProfileManager.init.entry f = Option.none ∧
      ValidatedProperty.get UserProfileManager.init f = PyVal.none) ∧
    (UserProfileManager.init.priv_username = some PyVal.none ∧
      UserProfileManager.init.priv_email = some PyVal.none ∧
      UserProfileManager.init.priv_last_login = some PyVal.none) ∧
    (∀ (p : Profile) (f : FieldId), p.entry f = Option.none →
      ValidatedProperty.get p f = PyVal.none) := by
  refine ⟨fun f => ?_, ⟨rfl, rfl, rfl⟩, fun p f h => ?_⟩
  · cases f <;> exact ⟨rfl, rfl⟩
  · unfold ValidatedProperty.get
    rw [h]
    rfl

/-- Concrete instantiation of C8: reading `email` on a fresh instance
yields the `None` sentinel. -/
theorem claim_C8_witness :
    ValidatedProperty.get UserProfileManager.init .email = PyVal.none :=
  claim_C8_fresh_instance.2.2 UserProfileManager.init .email rfl

/-- Claim C9: assigning a value the validator accepts succeeds, and
assigning it again succeeds and leaves the stored state exactly as after
the first assignment. -/
theorem claim_C9_idempotent_valid_assignment (p : Profile) (f : FieldId) (v : PyVal)
    (h : f.validator v = true) :
    ∃ p', ValidatedProperty.set p f v = .ok p' ∧
      ValidatedProperty.set p' f v = .ok p' := by
  refine ⟨p.write f v, ?_, ?_⟩
  · simp [ValidatedProperty.set, h]
  · have hw : (p.write f v).write f v = p.write f v := by cases f <;> rfl
    simp [ValidatedProperty.set, h, hw]

/-- Concrete instantiation of C9: assigning `"alice"` to `username`
twice. -/
theorem claim_C9_witness :
    ∃ p', ValidatedProperty.set UserProfileManager.init .username (.str "alice") =
        .ok p' ∧
      ValidatedProperty.set p' .username (.str "alice") = .ok p' :=
  claim_C9_idempotent_valid_assignment UserProfileManager.init .username
    (.str "alice") (by decide)

/-- Claim C10: a successful assignment through one descriptor writes only
under its own bound name — every other validated field's entry, and all
three underscore keys, are unchanged. -/
theorem claim_C10_frame (p : Profile) (f : FieldId) (v : PyVal) (p' : Profile)
    (h : ValidatedProperty.set p f v = .ok p') :
    (∀ g, g ≠ f → p'.entry g = p.entry g) ∧
    (p'.priv_username = p.priv_username ∧ p'.priv_email = p.priv_email ∧
      p'.priv_last_login = p.priv_last_login) := by
  have hp' : p' = p.write f v := by
    unfold ValidatedProperty.set at h
    by_cases hv : f.validator v
    · rw [if_pos hv] at h
      injection h with h
      exact h.symm
    · rw [if_neg hv] at h
      cases h
  subst hp'
  constructor
  · intro g hg
    cases f <;> cases g <;> first | exact absurd rfl hg | rfl
  · cases f <;> exact ⟨rfl, rfl, rfl⟩

/-- Concrete instantiation of C10: writing `username := "alice"` on a
fresh instance leaves the `email` entry (and the underscore keys)
untouched. -/
theorem claim_C10_witness :
    (UserProfileManager.init.write .username (PyVal.str "alice")).entry .email =
      UserProfileManager.init.entry .email :=
  (claim_C10_frame UserProfileManager.init .username (.str "alice")
      (UserProfileManager.init.write .username (PyVal.str "alice")) rfl).1
    .email (by decide)

/-- Claim C3, counterexample: the string `"a@b.co\n"` is accepted by
`validate_email` (Python's `$` matches just before a terminal newline),
yet it admits no decomposition into the spec's pattern anchored at both
ends of the string — its last character `'\n'` belongs to none of the
pattern's character classes. -/
theorem claim_C3_counterexample :
    validate_email (.str "a@b.co\x0a") = true ∧ ¬ SpecEmail "a@b.co\x0a".data := by
  constructor
  · decide
  · rintro ⟨a, b, c, hl, hane, hal, hbne, hbl, hlen, hcal⟩
    have hmem : '\x0a' ∈ "a@b.co\x0a".data := by decide
    rw [hl] at hmem
    simp only [List.mem_append, List.mem_cons] at hmem
    rcases hmem with h | h | h | h | h
    · exact absurd (hal _ h) (by decide)
    · exact absurd h (by decide)
    · exact absurd (hbl _ h) (by decide)
    · exact absurd h (by decide)
    · exact absurd (hcal _ h) (by decide)

/-- Claim C3, amended: `validate_email` accepts exactly the strings whose
characters decompose as `local+ '@' domain+ '.' letters{2,}` anchored at
the start and at the end **except that one trailing newline after an
otherwise matching body is also accepted** (the semantics of `$` under
`re.match`); every non-string is rejected (no exception is raised: the
embedding is a total function). -/
theorem claim_C3_amended (v : PyVal) :
    validate_email v = true ↔
      ∃ s, v = PyVal.str s ∧
        (SpecEmail s.data ∨ ∃ t, s.data = t ++ ['\x0a'] ∧ SpecEmail t) := by
  cases v with
  | str s =>
    rw [validate_email_str_iff]
    constructor
    · intro h
      exact ⟨s, rfl, h⟩
    · rintro ⟨s', hs, h⟩
      injection hs with hs'
      subst hs'
      exact h
  | none => simp [validate_email]
  | dt d => simp [validate_email]
  | intv n => simp [validate_email]

/-- Sanity of the `str(datetime)` embedding: a nonzero microsecond field
renders with six-digit zero-padding, and the year pads to four digits,
exactly as CPython prints them. -/
theorem render_pads_microseconds :
    PyVal.render (.dt ⟨2024, 5, 6, 7, 8, 9, 5⟩) =
      "2024-05-06 07:08:09.000005" ∧
    PyVal.render (.dt ⟨2024, 5, 6, 7, 8, 9, 123456⟩) =
      "2024-05-06 07:08:09.123456" ∧
    PyVal.render (.dt ⟨5, 1, 1, 0, 0, 0, 0⟩) = "0005-01-01 00:00:00" :=
  ⟨by decide, by decide, by decide⟩
